import Mathlib

/-!
Verification development for the Cookie Manager Pro background service worker
(`src/background/service-worker.js`) and its crypto utilities (`lib/crypto.js`,
loaded via `importScripts`).  The JavaScript is shallowly embedded: JS strings
become `String`, byte arrays become `List Nat` (each element `< 256`), JS
`undefined`-able fields become `Option`, thrown errors become `Except String`
results, and `chrome.storage.local` / `chrome.cookies` / WebCrypto are treated
as explicit parameters (opaque capabilities), exactly as the specification's
"Blob Store" / "Cookie Store" boundaries prescribe.
-/

set_option autoImplicit false

namespace Cooklix

/-! ### JavaScript truthiness helpers

The source tests optional fields with bare `if (x)` checks, so `undefined`,
`""`, `false` and `0` all count as absent.  These helpers make that explicit. -/

/-- Truthiness of a possibly-`undefined` JS string: `undefined` and `""` are falsy. -/
def strTruthy : Option String → Bool
  | some s => !s.isEmpty
  | none => false

/-- Truthiness of a possibly-`undefined` JS number: `undefined` and `0` are falsy. -/
def numTruthy : Option Nat → Bool
  | some n => n != 0
  | none => false

/-- Truthiness of a possibly-`undefined` JS boolean. -/
def boolTruthy : Option Bool → Bool
  | some b => b
  | none => false

/-- JS `x || dflt` for strings (`dflt` when `x` is `undefined` or `""`). -/
def jsOrStr (o : Option String) (dflt : String) : String :=
  match o with
  | some s => if s.isEmpty then dflt else s
  | none => dflt

/-- JS `String.prototype.trim`: strip leading and trailing whitespace. -/
def jsTrim (s : String) : String :=
  String.mk (((s.data.dropWhile Char.isWhitespace).reverse.dropWhile
    Char.isWhitespace).reverse)

/-! ### Base64 (`btoa` / `atob`)

`lib/crypto.js` round-trips byte arrays through the platform's `btoa`/`atob`.
We embed the standard base64 codec over `List Nat` bytes and `List Char`
output, including the `=` padding rules. -/

/-- The 64-character standard base64 alphabet. -/
def b64chars : List Char :=
  ['A', 'B', 'C', 'D', 'E', 'F', 'G', 'H', 'I', 'J', 'K', 'L', 'M',
   'N', 'O', 'P', 'Q', 'R', 'S', 'T', 'U', 'V', 'W', 'X', 'Y', 'Z',
   'a', 'b', 'c', 'd', 'e', 'f', 'g', 'h', 'i', 'j', 'k', 'l', 'm',
   'n', 'o', 'p', 'q', 'r', 's', 't', 'u', 'v', 'w', 'x', 'y', 'z',
   '0', '1', '2', '3', '4', '5', '6', '7', '8', '9', '+', '/']

/-- The base64 digit for a 6-bit value. -/
def b64char (n : Nat) : Char := b64chars.getD n 'A'

/-- Index of a character in a list of characters (used to invert `b64char`). -/
def charIdx (c : Char) : List Char → Option Nat
  | [] => none
  | x :: xs => if x = c then some 0 else (charIdx c xs).map (· + 1)

/-- The platform `btoa`: encode a byte sequence as base64 text with padding. -/
def btoa : List Nat → List Char
  | a :: b :: c :: rest =>
      b64char (a / 4) :: b64char (a % 4 * 16 + b / 16) ::
      b64char (b % 16 * 4 + c / 64) :: b64char (c % 64) :: btoa rest
  | [a] => [b64char (a / 4), b64char (a % 4 * 16), '=', '=']
  | [a, b] => [b64char (a / 4), b64char (a % 4 * 16 + b / 16), b64char (b % 16 * 4), '=']
  | [] => []

/-- The platform `atob`: decode base64 text back to bytes (`none` on malformed input). -/
def atob : List Char → Option (List Nat)
  | [] => some []
  | c1 :: c2 :: c3 :: c4 :: rest =>
      match charIdx c1 b64chars, charIdx c2 b64chars with
      | some i1, some i2 =>
        if c3 = '=' then
          if c4 = '=' ∧ rest = [] then some [i1 * 4 + i2 / 16] else none
        else
          match charIdx c3 b64chars with
          | some i3 =>
            if c4 = '=' then
              if rest = [] then some [i1 * 4 + i2 / 16, i2 % 16 * 16 + i3 / 4] else none
            else
              match charIdx c4 b64chars, atob rest with
              | some i4, some tail =>
                  some ((i1 * 4 + i2 / 16) :: (i2 % 16 * 16 + i3 / 4) :: (i3 % 4 * 64 + i4) :: tail)
              | _, _ => none
          | none => none
      | _, _ => none
  | _ => none

theorem charIdx_b64char : ∀ n < 64, charIdx (b64char n) b64chars = some n := by decide

theorem b64char_ne_pad_of_lt : ∀ n < 64, b64char n ≠ '=' := by decide

theorem b64char_ne_pad (n : Nat) : b64char n ≠ '=' := by
  rcases Nat.lt_or_ge n 64 with h | h
  · exact b64char_ne_pad_of_lt n h
  · have hlen : b64chars.length ≤ n := by
      simpa [b64chars] using h
    show b64chars.getD n 'A' ≠ '='
    rw [List.getD_eq_default _ _ hlen]
    decide

theorem atob_btoa : ∀ bs : List Nat, (∀ b ∈ bs, b < 256) → atob (btoa bs) = some bs
  | [], _ => by decide
  | [a], h => by
      have ha : a < 256 := h a (by simp)
      have e1 : charIdx (b64char (a / 4)) b64chars = some (a / 4) :=
        charIdx_b64char _ (by omega)
      have e2 : charIdx (b64char (a % 4 * 16)) b64chars = some (a % 4 * 16) :=
        charIdx_b64char _ (by omega)
      simp [btoa, atob, e1, e2]
      omega
  | [a, b], h => by
      have ha : a < 256 := h a (by simp)
      have hb : b < 256 := h b (by simp)
      have e1 : charIdx (b64char (a / 4)) b64chars = some (a / 4) :=
        charIdx_b64char _ (by omega)
      have e2 : charIdx (b64char (a % 4 * 16 + b / 16)) b64chars =
          some (a % 4 * 16 + b / 16) := charIdx_b64char _ (by omega)
      have e3 : charIdx (b64char (b % 16 * 4)) b64chars = some (b % 16 * 4) :=
        charIdx_b64char _ (by omega)
      have n3 : b64char (b % 16 * 4) ≠ '=' := b64char_ne_pad _
      simp [btoa, atob, e1, e2, e3, n3]
      omega
  | a :: b :: c :: rest, h => by
      have ha : a < 256 := h a (by simp)
      have hb : b < 256 := h b (by simp)
      have hc : c < 256 := h c (by simp)
      have ih : atob (btoa rest) = some rest :=
        atob_btoa rest (fun x hx => h x (by simp [hx]))
      have e1 : charIdx (b64char (a / 4)) b64chars = some (a / 4) :=
        charIdx_b64char _ (by omega)
      have e2 : charIdx (b64char (a % 4 * 16 + b / 16)) b64chars =
          some (a % 4 * 16 + b / 16) := charIdx_b64char _ (by omega)
      have e3 : charIdx (b64char (b % 16 * 4 + c / 64)) b64chars =
          some (b % 16 * 4 + c / 64) := charIdx_b64char _ (by omega)
      have e4 : charIdx (b64char (c % 64)) b64chars = some (c % 64) :=
        charIdx_b64char _ (by omega)
      have n3 : b64char (b % 16 * 4 + c / 64) ≠ '=' := b64char_ne_pad _
      have n4 : b64char (c % 64) ≠ '=' := b64char_ne_pad _
      simp [btoa, atob, e1, e2, e3, e4, n3, n4, ih]
      omega

/-! ### Key Manager (`generateEncryptionKey`, `getOrCreateKey`)

`crypto.getRandomValues(new Uint8Array(24))` is an external entropy source, so
the 24 random bytes become an explicit `rand` argument.  `chrome.storage.local`
is the Blob Store: its `masterEncryptionKey` entry becomes the `stored`
argument, and the persisted value after the call is returned alongside the
resolved key. -/

/-- The JS regex replace `base64.replace(/=+$/, '')`: drop trailing `=` characters. -/
def stripTrailingEq (s : List Char) : List Char :=
  (s.reverse.dropWhile (fun ch => ch = '=')).reverse

theorem dropWhile_eq_self_of_not (p : Char → Bool) (l : List Char)
    (h : ∀ ch ∈ l, ¬p ch) : l.dropWhile p = l := by
  cases l with
  | nil => rfl
  | cons x xs =>
      have hx : ¬p x := h x (by simp)
      simp [List.dropWhile, hx]

theorem stripTrailingEq_eq_self (s : List Char) (h : ∀ ch ∈ s, ch ≠ '=') :
    stripTrailingEq s = s := by
  unfold stripTrailingEq
  rw [dropWhile_eq_self_of_not _ _ (fun ch hch => by
        simpa using h ch (List.mem_reverse.mp hch)),
      List.reverse_reverse]

/-- On inputs whose length is a multiple of three, `btoa` emits no padding and
produces four characters per three bytes. -/
theorem btoa_no_pad : ∀ bs : List Nat, bs.length % 3 = 0 →
    (∀ ch ∈ btoa bs, ch ≠ '=') ∧ (btoa bs).length = bs.length / 3 * 4
  | [], _ => by simp [btoa]
  | [_], h => by simp at h
  | [_, _], h => by simp at h
  | a :: b :: c :: rest, h => by
      have hrest : rest.length % 3 = 0 := by
        have := h
        simp [List.length_cons] at this ⊢
        omega
      have ih := btoa_no_pad rest hrest
      constructor
      · intro ch hch
        simp only [btoa, List.mem_cons] at hch
        rcases hch with rfl | rfl | rfl | rfl | hch
        · exact b64char_ne_pad _
        · exact b64char_ne_pad _
        · exact b64char_ne_pad _
        · exact b64char_ne_pad _
        · exact ih.1 ch hch
      · simp only [btoa, List.length_cons, ih.2]
        omega

/-- `generateEncryptionKey` from `lib/crypto.js`: base64-encode 24 random bytes
and strip trailing padding.  The entropy source is the `rand` argument. -/
def generateEncryptionKey (rand : List Nat) : String :=
  String.mk (stripTrailingEq (btoa rand))

/-- `getOrCreateKey` from `lib/crypto.js`.  `stored` is the Blob Store's
`masterEncryptionKey` entry (`none` when absent); `rand` is the entropy that
`crypto.getRandomValues` would supply if a fresh key is needed.  Returns the
resolved key together with the value persisted in the Blob Store afterwards.
The JS truthiness test `result.masterEncryptionKey && ... .length === 32` is
modelled by the emptiness and length checks. -/
def getOrCreateKey (stored : Option String) (rand : List Nat) :
    Except String (String × String) :=
  let existing : Option String :=
    match stored with
    | some k => if !k.isEmpty ∧ k.length = 32 then some k else none
    | none => none
  match existing with
  | some k => .ok (k, k)
  | none =>
    let newKey := generateEncryptionKey rand
    if newKey.length ≠ 32 then
      .error ("Generated key has invalid length: " ++ toString newKey.length ++ " (expected 32)")
    else
      .ok (newKey, newKey)

theorem generateEncryptionKey_length (rand : List Nat) (h : rand.length = 24) :
    (generateEncryptionKey rand).length = 32 := by
  have hmod : rand.length % 3 = 0 := by omega
  have hpad := btoa_no_pad rand hmod
  show (String.mk (stripTrailingEq (btoa rand))).length = 32
  rw [stripTrailingEq_eq_self _ hpad.1]
  show (btoa rand).length = 32
  rw [hpad.2, h]

/-! ### Cookie data model

`CookieRecord` is the loose JS cookie object flowing through presets and
import/export; every field that JS code may find `undefined` is an `Option`.
Numbers that only ever hold epoch seconds are modelled as `Nat`. -/

structure CookieRecord where
  name : String
  value : String
  domain : Option String := none
  path : Option String := none
  secure : Option Bool := none
  httpOnly : Option Bool := none
  sameSite : Option String := none
  expirationDate : Option Nat := none
  session : Option Bool := none
  deriving DecidableEq, Repr

/-! ### Preset Store (`savePreset`, `loadPreset`, `renamePreset`)

The `presets` object kept in `chrome.storage.local` maps preset names to
envelope strings.  A JS object holds at most one value per key, so it is
embedded as `String → Option String`; `chrome.storage.local.get(['presets'])`
returning no entry is the `none` state, and `result.presets || {}` is `getD
emptyPresetMap`.  Mutating operations return the map that
`chrome.storage.local.set({ presets })` persists on success.  The Envelope
Cipher is passed in as `enc` / `dec` (see the cipher section below); the JS
`throw`/catch pattern that yields `{success:false, error}` becomes
`Except String`. -/

def PresetMap : Type := String → Option String

def emptyPresetMap : PresetMap := fun _ => none

/-- JS `presets[k]` read. -/
def mapGet (m : PresetMap) (k : String) : Option String := m k

/-- JS `presets[k] = v` assignment. -/
def mapSet (m : PresetMap) (k : String) (v : String) : PresetMap :=
  fun q => if q = k then some v else m q

/-- JS `delete presets[k]`. -/
def mapDel (m : PresetMap) (k : String) : PresetMap :=
  fun q => if q = k then none else m q

/-- The `chrome.storage.local.get(['presets'])` phase of `savePreset`
(line 141-142 of the service worker): read the whole map, defaulting to `{}`. -/
def saveReadPhase (st : Option PresetMap) : PresetMap :=
  st.getD emptyPresetMap

/-- The mutation-and-`chrome.storage.local.set` phase of `savePreset`
(lines 143-145): overwrite one entry and persist the whole map. -/
def saveWritePhase (m : PresetMap) (name env : String) : PresetMap :=
  mapSet m name env

/-- `savePreset` from the service worker.  `enc` is `encryptJSON`; the
`Array.isArray` guard always passes because the embedding types `cookies` as a
list.  On success, returns the map persisted to the Blob Store. -/
def savePreset (enc : List CookieRecord → String) (st : Option PresetMap)
    (presetName : String) (cookies : List CookieRecord) : Except String PresetMap :=
  if presetName = "" ∨ jsTrim presetName = "" then
    .error "Preset name is required"
  else
    .ok (saveWritePhase (saveReadPhase st) presetName (enc cookies))

/-- `loadPreset` from the service worker.  `dec` is `decryptJSON` (`none` when
decryption throws).  The JS truthiness check `!presets[presetName]` also treats
an empty-string envelope as missing, mirrored by the `env = ""` branch. -/
def loadPreset (dec : String → Option (List CookieRecord)) (st : Option PresetMap)
    (presetName : String) : Except String (List CookieRecord) :=
  if presetName = "" then
    .error "Preset name is required"
  else
    match mapGet (st.getD emptyPresetMap) presetName with
    | none => .error ("Preset \"" ++ presetName ++ "\" not found")
    | some env =>
      if env = "" then .error ("Preset \"" ++ presetName ++ "\" not found")
      else
        match dec env with
        | none => .error "Decryption failed"
        | some cookies => .ok cookies

/-- `renamePreset` from the service worker: guard order is exactly the source's
(required names, identical names, missing `oldName`, existing `newName`), then
`presets[newName] = presets[oldName]; delete presets[oldName]` and persist. -/
def renamePreset (st : Option PresetMap) (oldName newName : String) :
    Except String PresetMap :=
  if oldName = "" ∨ newName = "" then
    .error "Both old and new names are required"
  else if oldName = newName then
    .error "New name must be different from old name"
  else
    match mapGet (st.getD emptyPresetMap) oldName with
    | none => .error ("Preset \"" ++ oldName ++ "\" not found")
    | some env =>
      if env = "" then .error ("Preset \"" ++ oldName ++ "\" not found")
      else if strTruthy (mapGet (st.getD emptyPresetMap) newName) then
        .error ("Preset \"" ++ newName ++ "\" already exists")
      else
        .ok (mapDel (mapSet (st.getD emptyPresetMap) newName env) oldName)

/-- The Blob Store state after running one mutation: persisted only on success
(`chrome.storage.local.set` is never reached when the operation throws). -/
def runMutation (st : Option PresetMap) (r : Except String PresetMap) :
    Option PresetMap :=
  match r with
  | .ok m => some m
  | .error _ => st

/-- Two `savePreset` calls racing on the same Blob Store: both read the map
before either write lands (`read A, read B, write A, write B`).  The service
worker contains no lock, so nothing prevents this interleaving; the final
persisted map is whatever the second write computed from its stale read. -/
def interleavedSaves (st : Option PresetMap) (n1 e1 n2 e2 : String) : PresetMap :=
  let m1 := saveReadPhase st
  let m2 := saveReadPhase st
  let _w1 := saveWritePhase m1 n1 e1
  saveWritePhase m2 n2 e2

/-! ### Application Protocol (`constructUrl`, `setCookie`, `applyPreset`)
and the import loop of `importCookies`

`chrome.cookies.set` is the Cookie Store write capability, passed in as
`chromeSet : CookieConfig → Except String Unit`.  `SetCookieDetails` is the
argument object of `setCookie`; `CookieConfig` is the object it actually hands
to `chrome.cookies.set`, where a `none` field is one the source never assigned
(JS property absent). -/

/-- `constructUrl` from the service worker: pick the protocol from `secure` and
strip one leading dot from the domain. -/
def constructUrl (domain : String) (secure : Bool) : String :=
  (if secure then "https://" else "http://") ++
    (if domain.startsWith "." then domain.drop 1 else domain)

structure SetCookieDetails where
  url : Option String := none
  name : String
  value : String
  domain : Option String := none
  path : Option String := none
  secure : Option Bool := none
  httpOnly : Option Bool := none
  sameSite : Option String := none
  expirationDate : Option Nat := none
  deriving DecidableEq, Repr

structure CookieConfig where
  url : String
  name : String
  value : String
  domain : Option String := none
  path : Option String := none
  secure : Option Bool := none
  httpOnly : Option Bool := none
  expirationDate : Option Nat := none
  sameSite : Option String := none
  deriving DecidableEq, Repr

/-- Keep an optional string field only when JS finds it truthy
(`if (x) config.field = x`). -/
def optStrField (o : Option String) : Option String :=
  if strTruthy o then o else none

/-- The `cookieConfig` object that `setCookie` builds and passes to
`chrome.cookies.set` (lines 61-74 of the service worker).  `secure` and
`httpOnly` are copied under an explicit `!== undefined` test, so they survive
as-is; `path`, `sameSite` and `expirationDate` sit behind truthiness tests; the
URL falls back to `constructUrl` when the `url` field is falsy (in the source
the fallback dereferences `cookieDetails.domain`, which the guard below has
ensured is truthy whenever the fallback is taken). -/
def buildCookieConfig (d : SetCookieDetails) : CookieConfig :=
  let url := jsOrStr d.url (constructUrl (d.domain.getD "") (d.secure.getD false))
  { url := url
    name := d.name
    value := d.value
    domain := optStrField d.domain
    path := optStrField d.path
    secure := d.secure
    httpOnly := d.httpOnly
    expirationDate := if numTruthy d.expirationDate then d.expirationDate else none
    sameSite := optStrField d.sameSite }

/-- `setCookie` from the service worker: require `url` or `domain`, build the
config, invoke the Cookie Store write. -/
def setCookie (chromeSet : CookieConfig → Except String Unit)
    (d : SetCookieDetails) : Except String Unit :=
  if !strTruthy d.url ∧ !strTruthy d.domain then
    .error "Either url or domain must be provided"
  else
    chromeSet (buildCookieConfig d)

/-- The `cookieDetails` object built per cookie inside `applyPreset`
(lines 287-291): spread the record, rebind `domain` to the target, and set the
URL from `constructUrl(domain, cookie.secure)` (an `undefined` `secure` hits
the `secure = false` default parameter). -/
def applyDetails (targetDomain : String) (c : CookieRecord) : SetCookieDetails :=
  { url := some (constructUrl targetDomain (c.secure.getD false))
    name := c.name
    value := c.value
    domain := some targetDomain
    path := c.path
    secure := c.secure
    httpOnly := c.httpOnly
    sameSite := c.sameSite
    expirationDate := c.expirationDate }

/-- `ApplyResult`: the success/failure accounting `applyPreset` returns
(`applied`, `failed` and the `errors` array of `{name, error}` objects). -/
structure ApplyResult where
  applied : Nat
  failed : Nat
  errors : List (String × String)
  deriving DecidableEq, Repr

/-- The `for (const cookie of cookies)` loop of `applyPreset` (lines 286-300):
attempt every cookie in order, counting successes and failures and recording
each failure's cookie name and error. -/
def applyCookies (chromeSet : CookieConfig → Except String Unit)
    (targetDomain : String) (cookies : List CookieRecord) : ApplyResult :=
  cookies.foldl
    (fun acc c =>
      match setCookie chromeSet (applyDetails targetDomain c) with
      | .ok _ => { acc with applied := acc.applied + 1 }
      | .error e => { acc with failed := acc.failed + 1, errors := acc.errors ++ [(c.name, e)] })
    ⟨0, 0, []⟩

/-- `applyPreset` from the service worker: guard the arguments, load and
decrypt the preset (propagating its error), then run the bulk loop. -/
def applyPreset (dec : String → Option (List CookieRecord))
    (chromeSet : CookieConfig → Except String Unit)
    (st : Option PresetMap) (presetName targetDomain : String) :
    Except String ApplyResult :=
  if presetName = "" then .error "Preset name is required"
  else if targetDomain = "" then .error "Domain is required"
  else
    match loadPreset dec st presetName with
    | .error e => .error e
    | .ok cookies => .ok (applyCookies chromeSet targetDomain cookies)

/-- The `sameSite` conditional chain of `importCookies` (lines 374-376): keep
the three recognized literals, anything else becomes `undefined` — the code's
representation of the spec's "unset" variant (the field is then omitted from
the Cookie Store write). -/
def normalizeSameSite (s : Option String) : Option String :=
  if s = some "no_restriction" then some "no_restriction"
  else if s = some "lax" then some "lax"
  else if s = some "strict" then some "strict"
  else none

/-- The `cookieDetails` object built per cookie inside `importCookies`
(lines 367-383): default `path` to `/`, default `secure`/`httpOnly` to `false`,
normalize `sameSite`, copy `expirationDate` only for non-session cookies with a
truthy expiration, and derive the URL from the record's own domain.  (When the
input record has no `domain` the real code would crash inside `constructUrl`;
the embedding reads it as `""`, a case outside every claim.) -/
def importDetails (c : CookieRecord) : SetCookieDetails :=
  { name := c.name
    value := c.value
    domain := c.domain
    path := some (jsOrStr c.path "/")
    secure := some (c.secure.getD false)
    httpOnly := some (c.httpOnly.getD false)
    sameSite := normalizeSameSite c.sameSite
    expirationDate :=
      if numTruthy c.expirationDate ∧ !boolTruthy c.session then c.expirationDate
      else none
    url := some (constructUrl (c.domain.getD "") (c.secure.getD false)) }

/-- The `for (const cookie of cookies)` loop of `importCookies`
(lines 366-392): same continue-on-failure accounting as `applyCookies`, but
each cookie is normalized by `importDetails` and applied against its own
domain. -/
def importApply (chromeSet : CookieConfig → Except String Unit)
    (cookies : List CookieRecord) : ApplyResult :=
  cookies.foldl
    (fun acc c =>
      match setCookie chromeSet (importDetails c) with
      | .ok _ => { acc with applied := acc.applied + 1 }
      | .error e => { acc with failed := acc.failed + 1, errors := acc.errors ++ [(c.name, e)] })
    ⟨0, 0, []⟩

/-! ### Envelope Cipher (`encrypt`, `decrypt` from `lib/crypto.js`)

The cipher composes five platform primitives: `JSON.stringify`/`JSON.parse`,
`TextEncoder`/`TextDecoder`, PBKDF2 key derivation (`stringToCryptoKey`),
AES-256-GCM (`crypto.subtle.encrypt`/`decrypt`), and `btoa`/`atob`.  The first
four are opaque platform capabilities and are bundled as an explicit
`CryptoPlatform` parameter, with the properties the platform guarantees
(decoders invert encoders, AEAD decryption inverts encryption under the same
key and nonce) appearing as hypotheses of the theorems; base64 is embedded
concretely above.  `α` is the type of plaintext values, `K` the type of derived
`CryptoKey`s.  Both `encrypt` and `decrypt` obtain the same master secret from
`getOrCreateKey` (its idempotence is proved separately), so the secret is a
shared explicit argument. -/

structure CryptoPlatform (α K : Type) where
  /-- `stringToCryptoKey`: PBKDF2 with fixed salt and iteration count; a pure
  function of the master secret, hence deterministic. -/
  deriveKey : String → K
  /-- `crypto.subtle.encrypt` with AES-GCM: key, 12-byte IV, plaintext bytes to
  ciphertext-plus-tag bytes. -/
  aeadEnc : K → List Nat → List Nat → List Nat
  /-- `crypto.subtle.decrypt` with AES-GCM; `none` models the authentication
  failure throw. -/
  aeadDec : K → List Nat → List Nat → Option (List Nat)
  /-- `JSON.stringify`. -/
  jsonStringify : α → List Char
  /-- `JSON.parse`; `none` models the parse-error throw. -/
  jsonParse : List Char → Option α
  /-- `new TextEncoder().encode`. -/
  utf8Encode : List Char → List Nat
  /-- `new TextDecoder().decode`; `none` models a decode failure. -/
  utf8Decode : List Nat → Option (List Char)

/-- `encrypt` from `lib/crypto.js`: serialize, UTF-8 encode, AES-GCM encrypt
under the derived key with the fresh 12-byte `iv`, prepend the IV, base64. -/
def encrypt {α K : Type} (P : CryptoPlatform α K) (masterSecret : String)
    (iv : List Nat) (data : α) : List Char :=
  let cryptoKey := P.deriveKey masterSecret
  let dataBytes := P.utf8Encode (P.jsonStringify data)
  let encryptedBytes := P.aeadEnc cryptoKey iv dataBytes
  btoa (iv ++ encryptedBytes)

/-- `decrypt` from `lib/crypto.js`: base64-decode, split the first 12 bytes as
the IV, AES-GCM decrypt the rest, UTF-8 decode, JSON-parse.  Any failure along
the way (the JS throws) is `none`. -/
def decrypt {α K : Type} (P : CryptoPlatform α K) (masterSecret : String)
    (encryptedData : List Char) : Option α :=
  match atob encryptedData with
  | none => none
  | some combinedBytes =>
    let iv := combinedBytes.take 12
    let encryptedBytes := combinedBytes.drop 12
    match P.aeadDec (P.deriveKey masterSecret) iv encryptedBytes with
    | none => none
    | some decryptedBytes =>
      match P.utf8Decode decryptedBytes with
      | none => none
      | some decryptedString => P.jsonParse decryptedString

/-! ## Claim theorems -/

/-! ### C1: encryption round-trip -/

/-- C1.  For every JSON-serializable value `v`, decrypting the result of
encrypting `v` returns `v`: `decrypt (encrypt v) = some v`.  `v` ranges over an
arbitrary plaintext type; "JSON-serializable" is the hypothesis `hjson` that
`JSON.parse` inverts `JSON.stringify` on `v`.  The remaining hypotheses are the
platform guarantees the source relies on: the nonce is the fresh 12-byte array
`crypto.getRandomValues(new Uint8Array(12))` produces (`hivLen`, `hivBytes`),
AES-GCM ciphertext is bytes (`hctBytes`) and its decryption under the same
derived WorkKey and nonce restores the plaintext (`haead`), and `TextDecoder`
inverts `TextEncoder` (`hutf8`). -/
theorem encrypt_decrypt_roundtrip {α K : Type} (P : CryptoPlatform α K)
    (masterSecret : String) (iv : List Nat) (v : α)
    (hivLen : iv.length = 12)
    (hivBytes : ∀ b ∈ iv, b < 256)
    (hctBytes : ∀ b ∈ P.aeadEnc (P.deriveKey masterSecret) iv
        (P.utf8Encode (P.jsonStringify v)), b < 256)
    (haead : P.aeadDec (P.deriveKey masterSecret) iv
        (P.aeadEnc (P.deriveKey masterSecret) iv (P.utf8Encode (P.jsonStringify v))) =
        some (P.utf8Encode (P.jsonStringify v)))
    (hutf8 : P.utf8Decode (P.utf8Encode (P.jsonStringify v)) = some (P.jsonStringify v))
    (hjson : P.jsonParse (P.jsonStringify v) = some v) :
    decrypt P masterSecret (encrypt P masterSecret iv v) = some v := by
  have hbytes : ∀ b ∈ iv ++ P.aeadEnc (P.deriveKey masterSecret) iv
      (P.utf8Encode (P.jsonStringify v)), b < 256 := by
    intro b hb
    rcases List.mem_append.mp hb with h | h
    · exact hivBytes b h
    · exact hctBytes b h
  have htake : (iv ++ P.aeadEnc (P.deriveKey masterSecret) iv
      (P.utf8Encode (P.jsonStringify v))).take 12 = iv := by
    rw [← hivLen]
    exact List.take_left iv _
  have hdrop : (iv ++ P.aeadEnc (P.deriveKey masterSecret) iv
      (P.utf8Encode (P.jsonStringify v))).drop 12 =
      P.aeadEnc (P.deriveKey masterSecret) iv (P.utf8Encode (P.jsonStringify v)) := by
    rw [← hivLen]
    exact List.drop_left iv _
  unfold encrypt decrypt
  rw [atob_btoa _ hbytes]
  simp only [htake, hdrop, haead, hutf8, hjson]

/-- A degenerate but lawful platform instance used to witness the round-trip
theorem on a concrete input. -/
def unitPlatform : CryptoPlatform Unit Unit where
  deriveKey := fun _ => ()
  aeadEnc := fun _ _ pt => pt
  aeadDec := fun _ _ ct => some ct
  jsonStringify := fun _ => []
  jsonParse := fun _ => some ()
  utf8Encode := fun _ => []
  utf8Decode := fun _ => some []

theorem encrypt_decrypt_roundtrip_witness :
    decrypt unitPlatform "key" (encrypt unitPlatform "key" (List.replicate 12 0) ()) =
      some () :=
  encrypt_decrypt_roundtrip unitPlatform "key" (List.replicate 12 0) ()
    (by decide) (by decide) (by decide) rfl rfl rfl

/-! ### C6: master key length and idempotence -/

/-- C6.  Every successful `getOrCreateKey` call returns a string of length
exactly 32 — a freshly generated key being the base64 of the 24 supplied random
bytes with trailing padding stripped (`generateEncryptionKey`) — and the key it
persists is that same string, so a second call with no intervening corruption
of the persisted value returns the identical string.  The existential equation
pins down the unique result of the first call, hence covers every successful
call. -/
theorem getOrCreateKey_length_and_idempotent (stored : Option String)
    (rand rand2 : List Nat) (hr : rand.length = 24) :
    ∃ k, getOrCreateKey stored rand = .ok (k, k) ∧ k.length = 32 ∧
      getOrCreateKey (some k) rand2 = .ok (k, k) := by
  have hgen : (generateEncryptionKey rand).length = 32 :=
    generateEncryptionKey_length rand hr
  have second : ∀ k : String, k.length = 32 → getOrCreateKey (some k) rand2 = .ok (k, k) := by
    intro k hk
    have hne : k ≠ "" := by
      intro h
      rw [h] at hk
      simp at hk
    have hne' : k.isEmpty = false := by
      rw [Bool.eq_false_iff]
      simpa [String.isEmpty_iff] using hne
    unfold getOrCreateKey
    simp [hne', hk]
  cases stored with
  | none =>
      refine ⟨generateEncryptionKey rand, ?_, hgen, second _ hgen⟩
      unfold getOrCreateKey
      simp [hgen]
  | some k0 =>
      by_cases hv : k0.isEmpty = false ∧ k0.length = 32
      · refine ⟨k0, ?_, hv.2, second _ hv.2⟩
        unfold getOrCreateKey
        simp [hv.1, hv.2]
      · refine ⟨generateEncryptionKey rand, ?_, hgen, second _ hgen⟩
        have hc : ¬((!k0.isEmpty) = true ∧ k0.length = 32) := by
          simpa [Bool.not_eq_true'] using hv
        unfold getOrCreateKey
        simp only [if_neg hc, hgen]
        simp [hgen]

theorem getOrCreateKey_length_and_idempotent_witness :
    ∃ k, getOrCreateKey none (List.replicate 24 0) = .ok (k, k) ∧ k.length = 32 ∧
      getOrCreateKey (some k) [] = .ok (k, k) :=
  getOrCreateKey_length_and_idempotent none (List.replicate 24 0) [] (by decide)

/-! ### C3: rename moves the envelope -/

/-- C3.  Whenever `renamePreset st "A" "B"` succeeds (which requires the map to
contain `A` and not `B`), loading `A` from the resulting map fails with the
NotFound error, and loading `B` returns exactly what loading `A` from the
pre-rename map would have returned: the envelope has moved under the new key.
The error kinds of the specification are embedded as the source's error
message strings (`NotFound` is `Preset "<name>" not found`). -/
theorem renamePreset_moves_envelope (dec : String → Option (List CookieRecord))
    (st : Option PresetMap) (A B : String) (st' : PresetMap)
    (h : renamePreset st A B = .ok st') :
    loadPreset dec (some st') A = .error ("Preset \"" ++ A ++ "\" not found") ∧
    loadPreset dec (some st') B = loadPreset dec st A := by
  unfold renamePreset at h
  by_cases h1 : A = "" ∨ B = ""
  · rw [if_pos h1] at h
    exact absurd h (by simp)
  rw [if_neg h1] at h
  push_neg at h1
  by_cases h2 : A = B
  · rw [if_pos h2] at h
    exact absurd h (by simp)
  rw [if_neg h2] at h
  cases hA : mapGet (st.getD emptyPresetMap) A with
  | none =>
      simp only [hA] at h
      exact absurd h (by simp)
  | some env =>
      simp only [hA] at h
      by_cases hE : env = ""
      · rw [if_pos hE] at h
        exact absurd h (by simp)
      rw [if_neg hE] at h
      by_cases hT : strTruthy (mapGet (st.getD emptyPresetMap) B) = true
      · rw [if_pos hT] at h
        exact absurd h (by simp)
      rw [if_neg hT] at h
      have hst : st' = mapDel (mapSet (st.getD emptyPresetMap) B env) A := by
        cases h
        rfl
      subst hst
      have hBA : B ≠ A := fun hq => h2 hq.symm
      constructor
      · unfold loadPreset
        rw [if_neg h1.1]
        simp [mapGet, mapDel, mapSet]
      · unfold loadPreset
        rw [if_neg h1.2, if_neg h1.1]
        have hgetB : mapGet ((some (mapDel (mapSet (st.getD emptyPresetMap) B env) A)).getD
            emptyPresetMap) B = some env := by
          simp [mapGet, mapDel, mapSet, hBA]
        rw [hgetB, hA]
        simp only [if_neg hE]

/-- Concrete map holding preset `A` (used by the C3 witness). -/
def m0W : PresetMap := mapSet emptyPresetMap "A" "x"

/-- Post-rename map of the C3 witness. -/
def stW' : PresetMap := mapDel (mapSet m0W "B" "x") "A"

/-- Trivial decryptor used by preset-store witnesses. -/
def decW : String → Option (List CookieRecord) := fun _ => some []

theorem renamePreset_moves_envelope_witness :
    loadPreset decW (some stW') "A" = .error ("Preset \"" ++ "A" ++ "\" not found") ∧
    loadPreset decW (some stW') "B" = loadPreset decW (some m0W) "A" :=
  renamePreset_moves_envelope decW (some m0W) "A" "B" stW' rfl

/-! ### C4: rename error cases -/

/-- C4 counterexample.  The claim says `rename(oldName, newName)` fails with
`NotFound` whenever `oldName` is absent, for *every* pair of names.  With
`oldName = ""` (absent from the empty map) and `newName = "B"`, the source's
first guard fires instead and the call fails with the required-names
`InvalidArgument` error, not with `NotFound`. -/
theorem renamePreset_notFound_cex :
    mapGet emptyPresetMap "" = none ∧
    renamePreset none "" "B" = .error "Both old and new names are required" ∧
    "Both old and new names are required" ≠ "Preset \"\" not found" :=
  ⟨rfl, rfl, by decide⟩

/-- C4 amended.  For non-empty names: `renamePreset` fails with
`InvalidArgument` when `oldName = newName` (this guard precedes the lookup),
with `NotFound` when the names differ and `oldName` is absent, and with
`AlreadyExists` when `oldName` is present (with a truthy envelope) and
`newName` is already present; in the `AlreadyExists` case nothing is persisted,
so the map — in particular the entry under `oldName` — is unchanged.  When
either name is empty the call fails with the required-names `InvalidArgument`
error (the counterexample above).  Error kinds are embedded as the source's
message strings. -/
theorem renamePreset_error_cases (st : Option PresetMap)
    (oldName newName envO envN : String)
    (ho : oldName ≠ "") (hn : newName ≠ "") :
    (oldName = newName →
      renamePreset st oldName newName = .error "New name must be different from old name") ∧
    (oldName ≠ newName → mapGet (st.getD emptyPresetMap) oldName = none →
      renamePreset st oldName newName = .error ("Preset \"" ++ oldName ++ "\" not found")) ∧
    (oldName ≠ newName →
      mapGet (st.getD emptyPresetMap) oldName = some envO → envO ≠ "" →
      mapGet (st.getD emptyPresetMap) newName = some envN → envN ≠ "" →
      renamePreset st oldName newName = .error ("Preset \"" ++ newName ++ "\" already exists") ∧
      runMutation st (renamePreset st oldName newName) = st) := by
  have hreq : ¬(oldName = "" ∨ newName = "") := by
    push_neg
    exact ⟨ho, hn⟩
  refine ⟨?_, ?_, ?_⟩
  · intro heq
    unfold renamePreset
    rw [if_neg hreq, if_pos heq]
  · intro hne habs
    unfold renamePreset
    rw [if_neg hreq, if_neg hne]
    simp only [habs]
  · intro hne hO hOne hN hNne
    have hNe' : envN.isEmpty = false := by
      rw [Bool.eq_false_iff]
      simpa [String.isEmpty_iff] using hNne
    have hT : strTruthy (mapGet (st.getD emptyPresetMap) newName) = true := by
      rw [hN]
      simp [strTruthy, hNe']
    have hcall : renamePreset st oldName newName =
        .error ("Preset \"" ++ newName ++ "\" already exists") := by
      unfold renamePreset
      rw [if_neg hreq, if_neg hne]
      simp only [hO]
      rw [if_neg hOne, if_pos hT]
    exact ⟨hcall, by simp [runMutation, hcall]⟩

/-- Concrete map holding presets `A` and `B` (used by the C4 witness). -/
def m1W : PresetMap := mapSet (mapSet emptyPresetMap "A" "x") "B" "y"

theorem renamePreset_error_cases_witness :
    ("A" = "B" →
      renamePreset (some m1W) "A" "B" = .error "New name must be different from old name") ∧
    ("A" ≠ "B" → mapGet ((some m1W).getD emptyPresetMap) "A" = none →
      renamePreset (some m1W) "A" "B" = .error ("Preset \"" ++ "A" ++ "\" not found")) ∧
    ("A" ≠ "B" →
      mapGet ((some m1W).getD emptyPresetMap) "A" = some "x" → "x" ≠ "" →
      mapGet ((some m1W).getD emptyPresetMap) "B" = some "y" → "y" ≠ "" →
      renamePreset (some m1W) "A" "B" = .error ("Preset \"" ++ "B" ++ "\" already exists") ∧
      runMutation (some m1W) (renamePreset (some m1W) "A" "B") = some m1W) :=
  renamePreset_error_cases (some m1W) "A" "B" "x" "y" (by decide) (by decide)

/-! ### C5: save overwrites -/

/-- C5.  For a name with non-empty trimmed form and any two cookie lists `X`
and `Y`, `save(A, X)` then `save(A, Y)` both succeed (saving onto an existing
name overwrites instead of failing), and loading `A` afterwards returns `Y`.
The hypotheses `henc`/`hrt` are the Envelope Cipher facts the store relies on:
the envelope is a non-empty string and decryption inverts encryption. -/
theorem savePreset_overwrite (enc : List CookieRecord → String)
    (dec : String → Option (List CookieRecord)) (st : Option PresetMap)
    (A : String) (X Y : List CookieRecord)
    (hA : jsTrim A ≠ "") (henc : enc Y ≠ "") (hrt : dec (enc Y) = some Y) :
    ∃ st1 st2, savePreset enc st A X = .ok st1 ∧
      savePreset enc (some st1) A Y = .ok st2 ∧
      loadPreset dec (some st2) A = .ok Y := by
  have hAne : A ≠ "" := by
    intro hq
    exact hA (by rw [hq]; rfl)
  have hguard : ¬(A = "" ∨ jsTrim A = "") := by
    push_neg
    exact ⟨hAne, hA⟩
  refine ⟨saveWritePhase (saveReadPhase st) A (enc X),
    saveWritePhase (saveReadPhase (some (saveWritePhase (saveReadPhase st) A (enc X)))) A (enc Y),
    ?_, ?_, ?_⟩
  · unfold savePreset
    rw [if_neg hguard]
  · unfold savePreset
    rw [if_neg hguard]
  · unfold loadPreset
    rw [if_neg hAne]
    have hget : mapGet ((some (saveWritePhase (saveReadPhase (some (saveWritePhase
        (saveReadPhase st) A (enc X)))) A (enc Y))).getD emptyPresetMap) A = some (enc Y) := by
      simp [mapGet, saveWritePhase, saveReadPhase, mapSet]
    rw [hget]
    simp only [if_neg henc, hrt]

theorem savePreset_overwrite_witness :
    ∃ st1 st2, savePreset (fun _ => "e") none "A"
        [⟨"n", "v", none, none, none, none, none, none, none⟩] = .ok st1 ∧
      savePreset (fun _ => "e") (some st1) "A" [] = .ok st2 ∧
      loadPreset decW (some st2) "A" = .ok [] :=
  savePreset_overwrite (fun _ => "e") decW none "A"
    [⟨"n", "v", none, none, none, none, none, none, none⟩] []
    (by decide) (by decide) rfl

/-! ### C10: names are stored untrimmed -/

/-- C10.  `savePreset` stores the preset under the name exactly as given (no
trimming): the persisted map binds the untrimmed `name` to the envelope and
leaves every other key — in particular any whitespace-variant of the name that
was absent before, such as `other` — untouched, so `load` succeeds only with
the identical untrimmed name and still fails with `NotFound` on the variant. -/
theorem savePreset_untrimmed_name (enc : List CookieRecord → String)
    (dec : String → Option (List CookieRecord)) (st : Option PresetMap)
    (name other : String) (X : List CookieRecord)
    (hname : jsTrim name ≠ "") (henc : enc X ≠ "") (hrt : dec (enc X) = some X)
    (hother : other ≠ name) (hotherNe : other ≠ "")
    (habs : mapGet (st.getD emptyPresetMap) other = none) :
    ∃ st', savePreset enc st name X = .ok st' ∧
      mapGet st' name = some (enc X) ∧
      mapGet st' other = none ∧
      loadPreset dec (some st') name = .ok X ∧
      loadPreset dec (some st') other = .error ("Preset \"" ++ other ++ "\" not found") := by
  have hne : name ≠ "" := by
    intro hq
    exact hname (by rw [hq]; rfl)
  have hguard : ¬(name = "" ∨ jsTrim name = "") := by
    push_neg
    exact ⟨hne, hname⟩
  refine ⟨saveWritePhase (saveReadPhase st) name (enc X), ?_, ?_, ?_, ?_, ?_⟩
  · unfold savePreset
    rw [if_neg hguard]
  · simp [mapGet, saveWritePhase, mapSet]
  · simpa [mapGet, saveWritePhase, saveReadPhase, mapSet, hother] using habs
  · unfold loadPreset
    rw [if_neg hne]
    have hget : mapGet ((some (saveWritePhase (saveReadPhase st) name (enc X))).getD
        emptyPresetMap) name = some (enc X) := by
      simp [mapGet, saveWritePhase, mapSet]
    rw [hget]
    simp only [if_neg henc, hrt]
  · unfold loadPreset
    rw [if_neg hotherNe]
    have hget : mapGet ((some (saveWritePhase (saveReadPhase st) name (enc X))).getD
        emptyPresetMap) other = none := by
      simpa [mapGet, saveWritePhase, saveReadPhase, mapSet, hother] using habs
    rw [hget]

theorem savePreset_untrimmed_name_witness :
    ∃ st', savePreset (fun _ => "e") none " A " [] = .ok st' ∧
      mapGet st' " A " = some "e" ∧
      mapGet st' "A" = none ∧
      loadPreset decW (some st') " A " = .ok [] ∧
      loadPreset decW (some st') "A" = .error ("Preset \"" ++ "A" ++ "\" not found") :=
  savePreset_untrimmed_name (fun _ => "e") decW none " A " "A" []
    (by decide) (by decide) rfl (by decide) (by decide) rfl

/-! ### C9: no mutation lock — lost update -/

/-- C9.  The claim states that all mutating Preset Store operations are
serialized through a single-flight FIFO in-process lock, so two concurrent
saves of different names both survive.  No such lock exists anywhere in the
source (the repository README documents an "Operation Lock" global mutex, but
nothing implements it): `savePreset` is exactly an unserialized
read-whole-map/write-whole-map pair, as the first two conjuncts record.
Interleaving two saves on an initially empty store as
`read A, read B, write A, write B` therefore loses the first update: the final
map lacks `"A"` entirely, where the claim requires both names present. -/
theorem savePreset_lost_update :
    savePreset (fun _ => "envA") none "A" [] =
      .ok (saveWritePhase (saveReadPhase none) "A" "envA") ∧
    savePreset (fun _ => "envB") none "B" [] =
      .ok (saveWritePhase (saveReadPhase none) "B" "envB") ∧
    mapGet (interleavedSaves none "A" "envA" "B" "envB") "A" = none ∧
    mapGet (interleavedSaves none "A" "envA" "B" "envB") "B" = some "envB" :=
  ⟨rfl, rfl, rfl, rfl⟩

/-! ### C2: bulk application accounting -/

/-- The outcome of the Cookie Store write attempted for one cookie of a preset
applied to `targetDomain` (the body of `applyPreset`'s loop). -/
def applyOutcome (chromeSet : CookieConfig → Except String Unit)
    (targetDomain : String) (c : CookieRecord) : Except String Unit :=
  setCookie chromeSet (applyDetails targetDomain c)

theorem applyCookies_from_acc (chromeSet : CookieConfig → Except String Unit)
    (targetDomain : String) : ∀ (cookies : List CookieRecord) (acc : ApplyResult),
    cookies.foldl
      (fun acc c =>
        match setCookie chromeSet (applyDetails targetDomain c) with
        | .ok _ => { acc with applied := acc.applied + 1 }
        | .error e => { acc with failed := acc.failed + 1, errors := acc.errors ++ [(c.name, e)] })
      acc =
    ⟨acc.applied + cookies.countP (fun c => (applyOutcome chromeSet targetDomain c).isOk),
     acc.failed + cookies.countP (fun c => !(applyOutcome chromeSet targetDomain c).isOk),
     acc.errors ++ cookies.filterMap (fun c =>
       match applyOutcome chromeSet targetDomain c with
       | .error e => some (c.name, e)
       | .ok _ => none)⟩ := by
  intro cookies
  induction cookies with
  | nil =>
      intro acc
      simp
  | cons c rest ih =>
      intro acc
      cases hc : setCookie chromeSet (applyDetails targetDomain c) with
      | ok u =>
          cases u
          simp only [List.foldl_cons, hc, ih]
          simp only [List.countP_cons, List.filterMap_cons, applyOutcome, hc,
            ApplyResult.mk.injEq]
          refine ⟨by simp [Except.toBool]; omega, by simp [Except.toBool], by simp⟩
      | error e =>
          simp only [List.foldl_cons, hc, ih]
          simp only [List.countP_cons, List.filterMap_cons, applyOutcome, hc,
            ApplyResult.mk.injEq]
          refine ⟨by simp [Except.toBool], by simp [Except.toBool]; omega, by simp⟩

/-- C2.  `applyPreset` attempts every cookie of the decrypted preset in the
original order: each success bumps the applied count, each failure bumps the
failed count and appends a detail record carrying that cookie's name, and
processing never short-circuits — the counts and the failure-detail list are
exactly an ordered fold over all cookies (last three conjuncts, for an
arbitrary cookie list).  In particular, for a preset of three cookies where
the Cookie Store rejects exactly the second one, `applyPreset` returns applied
count 2, failed count 1, and the single failure detail carrying the second
cookie's name (first conjunct). -/
theorem applyPreset_partial_failure
    (dec : String → Option (List CookieRecord))
    (chromeSet : CookieConfig → Except String Unit)
    (st : Option PresetMap) (presetName targetDomain : String)
    (c1 c2 c3 : CookieRecord) (e : String) (cookies : List CookieRecord)
    (hname : presetName ≠ "") (hdom : targetDomain ≠ "")
    (hload : loadPreset dec st presetName = .ok [c1, c2, c3])
    (h1 : setCookie chromeSet (applyDetails targetDomain c1) = .ok ())
    (h2 : setCookie chromeSet (applyDetails targetDomain c2) = .error e)
    (h3 : setCookie chromeSet (applyDetails targetDomain c3) = .ok ()) :
    applyPreset dec chromeSet st presetName targetDomain =
      .ok ⟨2, 1, [(c2.name, e)]⟩ ∧
    (applyCookies chromeSet targetDomain cookies).applied =
      cookies.countP (fun c => (applyOutcome chromeSet targetDomain c).isOk) ∧
    (applyCookies chromeSet targetDomain cookies).failed =
      cookies.countP (fun c => !(applyOutcome chromeSet targetDomain c).isOk) ∧
    (applyCookies chromeSet targetDomain cookies).errors =
      cookies.filterMap (fun c =>
        match applyOutcome chromeSet targetDomain c with
        | .error err => some (c.name, err)
        | .ok _ => none) := by
  have hgen := applyCookies_from_acc chromeSet targetDomain cookies ⟨0, 0, []⟩
  have hthree : applyCookies chromeSet targetDomain [c1, c2, c3] = ⟨2, 1, [(c2.name, e)]⟩ := by
    unfold applyCookies
    simp only [List.foldl_cons, List.foldl_nil, h1, h2, h3]
    rfl
  refine ⟨?_, ?_, ?_, ?_⟩
  · unfold applyPreset
    rw [if_neg hname, if_neg hdom, hload]
    show Except.ok (applyCookies chromeSet targetDomain [c1, c2, c3]) = _
    rw [hthree]
  · rw [show applyCookies chromeSet targetDomain cookies = _ from hgen]
    simp
  · rw [show applyCookies chromeSet targetDomain cookies = _ from hgen]
    simp
  · rw [show applyCookies chromeSet targetDomain cookies = _ from hgen]
    simp

/-- Cookie Store stub for the C2/C8 witnesses: rejects exactly the cookie
named `b`. -/
def chromeSetW : CookieConfig → Except String Unit :=
  fun cfg => if cfg.name = "b" then .error "rejected" else .ok ()

/-- First witness cookie. -/
def c1W : CookieRecord := ⟨"a", "1", none, none, none, none, none, none, none⟩

/-- Second witness cookie (the one `chromeSetW` rejects). -/
def c2W : CookieRecord := ⟨"b", "2", none, none, none, none, none, none, none⟩

/-- Third witness cookie. -/
def c3W : CookieRecord := ⟨"c", "3", none, none, none, none, none, none, none⟩

/-- Decryptor stub yielding the three witness cookies. -/
def decW3 : String → Option (List CookieRecord) := fun _ => some [c1W, c2W, c3W]

/-- Store state holding one preset `p` (used by the C2 witness). -/
def stPW : Option PresetMap := some (mapSet emptyPresetMap "p" "env")

theorem applyPreset_partial_failure_witness :
    applyPreset decW3 chromeSetW stPW "p" "example.com" =
      .ok ⟨2, 1, [(c2W.name, "rejected")]⟩ ∧
    (applyCookies chromeSetW "example.com" [c1W, c2W, c3W]).applied =
      ([c1W, c2W, c3W].countP (fun c => (applyOutcome chromeSetW "example.com" c).isOk)) ∧
    (applyCookies chromeSetW "example.com" [c1W, c2W, c3W]).failed =
      ([c1W, c2W, c3W].countP (fun c => !(applyOutcome chromeSetW "example.com" c).isOk)) ∧
    (applyCookies chromeSetW "example.com" [c1W, c2W, c3W]).errors =
      ([c1W, c2W, c3W].filterMap (fun c =>
        match applyOutcome chromeSetW "example.com" c with
        | .error err => some (c.name, err)
        | .ok _ => none)) :=
  applyPreset_partial_failure decW3 chromeSetW stPW "p" "example.com" c1W c2W c3W
    "rejected" [c1W, c2W, c3W] (by decide) (by decide) rfl rfl rfl rfl

/-! ### C7: import normalization -/

/-- C7.  `importCookies` normalizes each element before applying it: a missing
`path` defaults to `"/"`; missing `secure`/`httpOnly` default to `false`; any
`sameSite` value other than the three recognized literals — i.e. anything
outside the four allowed variants, the fourth ("unset") being represented in
the code by `undefined`/field omission — normalizes to that omitted "unset"
state, both in the normalized details and in the config handed to the Cookie
Store; and a cookie with `session = true` and an `expirationDate` present has
the expiration dropped from the details and from the applied config. -/
theorem importCookies_normalizes (c : CookieRecord) (s : String) :
    (c.path = none → (importDetails c).path = some "/") ∧
    (c.secure = none → (importDetails c).secure = some false) ∧
    (c.httpOnly = none → (importDetails c).httpOnly = some false) ∧
    (c.sameSite = some s → s ≠ "no_restriction" → s ≠ "lax" → s ≠ "strict" →
      (importDetails c).sameSite = none ∧
      (buildCookieConfig (importDetails c)).sameSite = none) ∧
    (c.sameSite = none → (importDetails c).sameSite = none) ∧
    (c.session = some true →
      (importDetails c).expirationDate = none ∧
      (buildCookieConfig (importDetails c)).expirationDate = none) := by
  refine ⟨?_, ?_, ?_, ?_, ?_, ?_⟩
  · intro hp
    simp [importDetails, jsOrStr, hp]
  · intro hs
    simp [importDetails, hs]
  · intro hh
    simp [importDetails, hh]
  · intro hss h1 h2 h3
    have hnorm : normalizeSameSite c.sameSite = none := by
      simp [normalizeSameSite, hss, h1, h2, h3]
    exact ⟨by simp [importDetails, hnorm],
      by simp [buildCookieConfig, optStrField, strTruthy, importDetails, hnorm]⟩
  · intro hss
    simp [importDetails, normalizeSameSite, hss]
  · intro hsess
    constructor
    · simp [importDetails, boolTruthy, hsess]
    · simp [buildCookieConfig, importDetails, numTruthy, boolTruthy, hsess]

/-- Witness cookie for C7: unknown `sameSite`, session cookie carrying an
expiration, with `path`, `secure` and `httpOnly` all absent. -/
def cImpW : CookieRecord :=
  ⟨"sid", "tok", some "example.com", none, none, none, some "unexpected",
    some 1234567, some true⟩

theorem importCookies_normalizes_witness :
    (cImpW.path = none → (importDetails cImpW).path = some "/") ∧
    (cImpW.secure = none → (importDetails cImpW).secure = some false) ∧
    (cImpW.httpOnly = none → (importDetails cImpW).httpOnly = some false) ∧
    (cImpW.sameSite = some "unexpected" → "unexpected" ≠ "no_restriction" →
      "unexpected" ≠ "lax" → "unexpected" ≠ "strict" →
      (importDetails cImpW).sameSite = none ∧
      (buildCookieConfig (importDetails cImpW)).sameSite = none) ∧
    (cImpW.sameSite = none → (importDetails cImpW).sameSite = none) ∧
    (cImpW.session = some true →
      (importDetails cImpW).expirationDate = none ∧
      (buildCookieConfig (importDetails cImpW)).expirationDate = none) :=
  importCookies_normalizes cImpW "unexpected"

/-! ### C8: target URL and domain rebinding -/

/-- C8.  For every cookie applied by `applyPreset` to a (non-empty, as the
top-level guard ensures) target domain, the config handed to the Cookie Store
write carries exactly the URL
`(secure ? "https://" : "http://") ++ stripLeadingDot targetDomain` — with an
absent `secure` flag counting as `false` — has its `domain` field rebound to
the target domain, and is precisely the argument `setCookie` passes to
`chrome.cookies.set`. -/
theorem applyPreset_url_and_domain (chromeSet : CookieConfig → Except String Unit)
    (targetDomain : String) (c : CookieRecord) (hd : targetDomain ≠ "") :
    (buildCookieConfig (applyDetails targetDomain c)).url =
      (if c.secure.getD false then "https://" else "http://") ++
      (if targetDomain.startsWith "." then targetDomain.drop 1 else targetDomain) ∧
    (buildCookieConfig (applyDetails targetDomain c)).domain = some targetDomain ∧
    setCookie chromeSet (applyDetails targetDomain c) =
      chromeSet (buildCookieConfig (applyDetails targetDomain c)) := by
  have hcu : constructUrl targetDomain (c.secure.getD false) ≠ "" := by
    intro hq
    have hlen := congrArg String.length hq
    rw [constructUrl, String.length_append] at hlen
    cases hb : c.secure.getD false <;> rw [hb] at hlen <;> simp at hlen <;>
      exact absurd hlen.1 (by decide)
  have hcuE : (constructUrl targetDomain (c.secure.getD false)).isEmpty = false := by
    rw [Bool.eq_false_iff]
    simpa [String.isEmpty_iff] using hcu
  have hdE : targetDomain.isEmpty = false := by
    rw [Bool.eq_false_iff]
    simpa [String.isEmpty_iff] using hd
  refine ⟨?_, ?_, ?_⟩
  · simp [buildCookieConfig, applyDetails, jsOrStr, hcuE, constructUrl]
  · simp [buildCookieConfig, applyDetails, optStrField, strTruthy, hdE]
  · unfold setCookie
    rw [if_neg]
    simp [applyDetails, strTruthy, hcuE]

theorem applyPreset_url_and_domain_witness :
    (buildCookieConfig (applyDetails ".example.com" c1W)).url =
      (if c1W.secure.getD false then "https://" else "http://") ++
      (if (".example.com" : String).startsWith "." then (".example.com" : String).drop 1
       else ".example.com") ∧
    (buildCookieConfig (applyDetails ".example.com" c1W)).domain = some ".example.com" ∧
    setCookie chromeSetW (applyDetails ".example.com" c1W) =
      chromeSetW (buildCookieConfig (applyDetails ".example.com" c1W)) :=
  applyPreset_url_and_domain chromeSetW ".example.com" c1W (by decide)

end Cooklix
